import Mathlib

/-!
Shallow embedding of `reprutils.py`: utilities for creating standardized
Python reprs.  The module offers `identifier` (fully qualified class
name), `standard_repr` (assembles the constructor-style string from an
object, a list of positional values and a list of keyword pairs), and
`GetattrRepr` (a descriptor whose constructor normalizes a flexible
argument convention into positional attribute names plus ordered keyword
pairs, and which at call time fetches the named attributes and delegates
to `standard_repr`).

Python values are modelled by the inductive `PyVal` covering the value
shapes the library manipulates (`None`, booleans, integers, strings);
Python's builtin `repr` on those values is modelled by `pyRepr`, and
`str` by `PyVal.toStr`.  Fallible operations return `Except PyErr`,
where `PyErr` distinguishes the `TypeError` and `AttributeError`
conditions the source can raise.
-/

/-- A Python value, restricted to the shapes exercised by the library:
`None`, booleans, integers and strings. -/
inductive PyVal where
  | vNone
  | vBool (b : Bool)
  | vInt (n : Int)
  | vStr (s : String)
  deriving DecidableEq, Repr

/-- Model of `isinstance(v, string_base)`: on Python 3 `string_base` is
`str` (reprutils.py line 68). -/
def PyVal.isStr : PyVal → Bool
  | .vStr _ => true
  | _ => false

/-- Model of one character of Python's string escaping inside `repr` of a
string: backslash, quote and control characters are escaped, anything
else passes through. -/
def pyEscapeChar (c : Char) : String :=
  if c = '\\' then "\\\\"
  else if c = '\'' then "\\'"
  else if c = '\n' then "\\n"
  else if c = '\r' then "\\r"
  else if c = '\t' then "\\t"
  else String.singleton c

/-- Model of Python's builtin `repr` on the values of `PyVal`: `None`,
`True`/`False`, decimal integers, and single-quoted escaped strings. -/
def pyRepr : PyVal → String
  | .vNone => "None"
  | .vBool true => "True"
  | .vBool false => "False"
  | .vInt n => toString n
  | .vStr s => "'" ++ String.join (s.data.map pyEscapeChar) ++ "'"

/-- Model of Python's builtin `str` on the values of `PyVal` (used by
`'{0}={1!r}'.format` for the keyword name slot, which applies `str`). -/
def PyVal.toStr : PyVal → String
  | .vStr s => s
  | v => pyRepr v

/-- A Python class, reduced to the metadata `identifier` reads:
`__module__` and `__name__`. -/
structure PyClass where
  module : String
  name : String
  deriving DecidableEq, Repr

/-- A Python object: its class together with its attribute dictionary,
modelled as an association list from attribute names to values. -/
structure PyObject where
  cls : PyClass
  attrs : List (String × PyVal)
  deriving DecidableEq, Repr

/-- The error kinds the source can raise: `TypeError` (non-string
keyword name, or `getattr` with a non-string attribute name) and
`AttributeError` (missing attribute). -/
inductive PyErr where
  | typeError
  | attributeError
  deriving DecidableEq, Repr

/-- Embedding of `identifier(cls)` from reprutils.py lines 74-80:
`cls.__module__ + '.' + cls.__name__`. -/
def identifier (cls : PyClass) : String :=
  cls.module ++ "." ++ cls.name

/-- Model of Python's builtin `getattr(o, name)`: the attribute's value
when present, an `AttributeError` when absent. -/
def getattr (o : PyObject) (name : String) : Except PyErr PyVal :=
  match o.attrs.lookup name with
  | some v => Except.ok v
  | none => Except.error PyErr.attributeError

/-- Embedding of `standard_repr(obj, args=None, kwargs=None)` from reprutils.py lines
83-131.  `none` for `args` or `kwargs` models the Python default `None`,
replaced by the empty list; then every keyword name is checked to be a
string (raising `TypeError('kwarg names must be strings')` otherwise),
and the result is
`''.join([identifier(obj.__class__), '(', ', '.join(items), ')'])` where
`items` chains `map(repr, args)` with
`'{0}={1!r}'.format(kwarg, value)` for each keyword pair. -/
def standard_repr (obj : PyObject) (args : Option (List PyVal))
    (kwargs : Option (List (PyVal × PyVal))) : Except PyErr String :=
  let args := args.getD []
  let kwargs := kwargs.getD []
  if ¬ (kwargs.all fun tpl => tpl.1.isStr) then
    Except.error PyErr.typeError
  else
    Except.ok (String.join [identifier obj.cls, "(",
      String.intercalate ", "
        (args.map pyRepr ++
          kwargs.map fun p => p.1.toStr ++ "=" ++ pyRepr p.2), ")"])

/-- An element of the trailing sugar collection accepted by
`GetattrRepr.__init__`: either a bare attribute name (a string) or an
explicit `(keyword label, attribute name)` tuple. -/
inductive SugarItem where
  | bare (s : String)
  | pair (label : String) (attr : String)
  deriving DecidableEq, Repr

/-- A positional argument to `GetattrRepr.__init__`: either a plain
attribute name (a string) or some other iterable collection (the
possible trailing sugar collection). -/
inductive GArg where
  | name (s : String)
  | coll (items : List SugarItem)
  deriving DecidableEq, Repr

/-- Model of `isinstance(arg, string_base)` on a positional argument. -/
def GArg.isName : GArg → Bool
  | .name _ => true
  | .coll _ => false

/-- The normalization applied to each element of the trailing sugar
collection (reprutils.py lines 200-203):
`item if not isinstance(item, string_base) else (item, item)`. -/
def sugarItemExpand : SugarItem → String × String
  | .bare s => (s, s)
  | .pair l a => (l, a)

/-- The state stored by a `GetattrRepr` descriptor: `self.args` (the
positional attribute names, kept as given, so possibly still containing
a collection) and `self.kwargs` (the ordered keyword
`(label, attribute name)` pairs). -/
structure GetattrRepr where
  args : List GArg
  kwargs : List (String × String)
  deriving DecidableEq, Repr

/-- Embedding of `GetattrRepr.__init__(*args, **kwargs)` from reprutils.py lines
187-207.  If `args` is nonempty and its last element is not a string,
that last element is removed from the positional list and expanded
element-wise into keyword pairs, to which the explicit keyword arguments
are appended in insertion order; otherwise the positional list is kept
whole and the keyword pairs are just the explicit keyword arguments. -/
def GetattrRepr.init (args : List GArg) (kwargs : List (String × String)) :
    GetattrRepr :=
  match args.getLast? with
  | some (GArg.coll items) =>
      { args := args.dropLast
        kwargs := items.map sugarItemExpand ++ kwargs }
  | _ => { args := args, kwargs := kwargs }

/-- One step of `map(my_getattr, self.args)`: a plain name is looked up
with `getattr`; a collection used as an attribute name makes Python's
`getattr` raise `TypeError` (attribute name must be string). -/
def GArg.fetch (a : GArg) (o : PyObject) : Except PyErr PyVal :=
  match a with
  | .name s => getattr o s
  | .coll _ => Except.error PyErr.typeError

/-- Embedding of `list(map(my_getattr, self.args))` from reprutils.py line 230:
fetches each positional attribute left to right, propagating the first
error. -/
def fetchAll (o : PyObject) : List GArg → Except PyErr (List PyVal)
  | [] => Except.ok []
  | a :: rest => do
      let v ← a.fetch o
      let vs ← fetchAll o rest
      pure (v :: vs)

/-- Embedding of the comprehension `[(k, my_getattr(v)) for k, v in self.kwargs]` from reprutils.py
line 231: fetches each keyword attribute left to right, pairing it with
its label, propagating the first error. -/
def fetchKw (o : PyObject) :
    List (String × String) → Except PyErr (List (PyVal × PyVal))
  | [] => Except.ok []
  | p :: rest => do
      let v ← getattr o p.2
      let vs ← fetchKw o rest
      pure ((PyVal.vStr p.1, v) :: vs)

/-- Embedding of `GetattrRepr.__call__(self, instance)` from reprutils.py lines
224-232: fetch the positional attribute values, then the keyword pairs,
then delegate to `standard_repr`. -/
def GetattrRepr.call (g : GetattrRepr) (o : PyObject) : Except PyErr String := do
  let posVals ← fetchAll o g.args
  let kwPairs ← fetchKw o g.kwargs
  standard_repr o (some posVals) (some kwPairs)

/-- The result of the descriptor protocol access modelled by
`GetattrRepr.__get__`: either the descriptor itself (class-level access)
or a bound zero-argument callable. -/
inductive BoundResult where
  | unbound (g : GetattrRepr)
  | bound (f : Unit → Except PyErr String)

/-- Embedding of `GetattrRepr.__get__(self, instance, owner)` from reprutils.py lines
209-222: with `instance is None` the descriptor itself is returned;
otherwise `types.MethodType(self.__call__, instance)`, a bound method
that, invoked with no further arguments, runs `self.__call__(instance)`. -/
def GetattrRepr.get (g : GetattrRepr) : Option PyObject → BoundResult
  | none => BoundResult.unbound g
  | some o => BoundResult.bound (fun _ => g.call o)

/-- The attribute value stored on `o` under `n`, defaulting to `None`;
used only to state theorems whose hypotheses guarantee presence. -/
def attrValue (o : PyObject) (n : String) : PyVal :=
  (o.attrs.lookup n).getD PyVal.vNone

/-- All attribute names a `GetattrRepr` spec will look up, in spec
order: the plain positional names followed by the keyword attribute
names. -/
def GetattrRepr.attrNames (g : GetattrRepr) : List String :=
  (g.args.filterMap fun a => match a with
    | GArg.name s => some s
    | GArg.coll _ => none) ++ g.kwargs.map Prod.snd

/-- A concrete instance of a class `m.P` with attributes `x = 1` and
`y = 2`, used for witnesses. -/
def oSample : PyObject :=
  PyObject.mk (PyClass.mk "m" "P") [("x", PyVal.vInt 1), ("y", PyVal.vInt 2)]

/-- A concrete instance of the same class `m.P` with no attributes,
used for witnesses. -/
def oSampleBare : PyObject :=
  PyObject.mk (PyClass.mk "m" "P") []

/-- The `''.join` of the four pieces assembled by `standard_repr` is plain
string concatenation. -/
theorem string_join_four (a b c d : String) :
    String.join [a, b, c, d] = a ++ b ++ c ++ d := by
  simp [String.join]

/-- C1: for every object `o`, positional values `V` and keyword pairs
`K` with string labels, `standard_repr` returns exactly
`identifier(type(o)) ++ "(" ++ join of repr-ed positionals and
label=repr(value) pairs ++ ")"`; in particular with both lists empty it
returns `identifier(type(o)) ++ "()"`. -/
theorem standard_repr_assembles :
    (∀ (o : PyObject) (V : List PyVal) (K : List (String × PyVal)),
      standard_repr o (some V) (some (K.map fun p => (PyVal.vStr p.1, p.2)))
        = Except.ok (identifier o.cls ++ "(" ++
            String.intercalate ", "
              (V.map pyRepr ++ K.map fun p => p.1 ++ "=" ++ pyRepr p.2)
            ++ ")"))
    ∧ (∀ o : PyObject,
        standard_repr o (some []) (some [])
          = Except.ok (identifier o.cls ++ "()")) := by
  constructor
  · intro o V K
    have hall : ((K.map fun p => (PyVal.vStr p.1, p.2)).all
        fun tpl => tpl.1.isStr) = true := by
      rw [List.all_eq_true]
      intro tpl htpl
      rw [List.mem_map] at htpl
      obtain ⟨p, hp, rfl⟩ := htpl
      rfl
    have hmap : List.map ((fun p : PyVal × PyVal =>
          p.1.toStr ++ "=" ++ pyRepr p.2)
        ∘ (fun p : String × PyVal => (PyVal.vStr p.1, p.2))) K
        = K.map (fun p => p.1 ++ "=" ++ pyRepr p.2) := by
      apply List.map_congr_left
      intro p _
      rfl
    simp only [standard_repr, Option.getD_some]
    rw [if_neg (fun h => h hall), string_join_four, List.map_map, hmap]
  · intro o
    simp only [standard_repr, Option.getD_some]
    rw [if_neg (fun h => h rfl), string_join_four]
    rw [String.append_assoc, String.append_assoc]
    rfl

/-- The sugar branch of `GetattrRepr.__init__`: with a nonempty
positional list ending in a collection, the collection is removed from
the positional list, expanded element-wise, and put before the explicit
keyword pairs. -/
theorem GetattrRepr.init_concat_coll (pos : List GArg)
    (items : List SugarItem) (K : List (String × String)) :
    GetattrRepr.init (pos ++ [GArg.coll items]) K
      = { args := pos, kwargs := items.map sugarItemExpand ++ K } := by
  unfold GetattrRepr.init
  rw [List.getLast?_concat, List.dropLast_concat]

/-- C2: a `GetattrRepr` construction whose last positional argument is a
collection removes it from the positional list (the earlier arguments
become the positional names in the order given) and expands it
element-wise into keyword entries — a bare name `n` becomes `(n, n)`, a
pair `(label, name)` is kept as-is — appended, in collection order,
before the explicit keyword entries. -/
theorem getattrRepr_trailing_sugar :
    ∀ (pos : List GArg) (items : List SugarItem) (K : List (String × String)),
      GetattrRepr.init (pos ++ [GArg.coll items]) K
        = { args := pos,
            kwargs := (items.map fun it =>
                match it with
                | SugarItem.bare n => (n, n)
                | SugarItem.pair l a => (l, a)) ++ K } := by
  intro pos items K
  rw [GetattrRepr.init_concat_coll]
  have hmap : items.map sugarItemExpand
      = items.map (fun it => match it with
          | SugarItem.bare n => (n, n)
          | SugarItem.pair l a => (l, a)) := by
    apply List.map_congr_left
    intro it _
    cases it <;> rfl
  rw [hmap]

/-- C3: the keyword-entry list produced by `GetattrRepr.__init__` is
exactly the trailing-collection-derived entries (in collection order)
followed by the explicit keyword entries (in the given order), with no
resorting and no deduplication (its length is the sum of the two
lengths); concretely, a label occurring both in the sugar collection and
as an explicit keyword argument is emitted twice in the output. -/
theorem getattrRepr_kwarg_ordering :
    (∀ (pos : List GArg) (items : List SugarItem) (K : List (String × String)),
      (GetattrRepr.init (pos ++ [GArg.coll items]) K).kwargs
          = items.map sugarItemExpand ++ K
        ∧ ((GetattrRepr.init (pos ++ [GArg.coll items]) K).kwargs).length
          = items.length + K.length)
    ∧ (GetattrRepr.init [GArg.coll [SugarItem.bare "x"]] [("x", "y")]).call
        (PyObject.mk (PyClass.mk "m" "C")
          [("x", PyVal.vInt 1), ("y", PyVal.vInt 2)])
        = Except.ok "m.C(x=1, x=2)" := by
  constructor
  · intro pos items K
    rw [GetattrRepr.init_concat_coll]
    constructor
    · rfl
    · simp [List.length_append, List.length_map]
  · rfl

/-- C4: `standard_repr` raises `TypeError` exactly when some keyword
pair has a non-string label (concretely, a pair labelled by the integer
`1` makes it fail); when it raises, no output string is produced and the
label is not coerced. -/
theorem standard_repr_kwarg_validation :
    (∀ (o : PyObject) (V : List PyVal) (K : List (PyVal × PyVal)),
      standard_repr o (some V) (some K) = Except.error PyErr.typeError
        ↔ ∃ p ∈ K, p.1.isStr = false)
    ∧ standard_repr (PyObject.mk (PyClass.mk "m" "A") []) (some [])
        (some [(PyVal.vInt 1, PyVal.vStr "x")])
        = Except.error PyErr.typeError := by
  constructor
  · intro o V K
    by_cases h : (K.all fun tpl => tpl.1.isStr) = true
    · simp only [standard_repr, Option.getD_some]
      rw [if_neg (fun hc => hc h)]
      rw [List.all_eq_true] at h
      constructor
      · intro hcontr
        exact Except.noConfusion hcontr
      · rintro ⟨p, hp, hps⟩
        rw [h p hp] at hps
        exact Bool.noConfusion hps
    · simp only [standard_repr, Option.getD_some]
      rw [if_pos h]
      rw [List.all_eq_true] at h
      push_neg at h
      constructor
      · intro _
        obtain ⟨p, hp, hps⟩ := h
        exact ⟨p, hp, by simpa using hps⟩
      · intro _
        rfl
  · rfl

/-- C10: `standard_repr` treats `None` (the Python default) for the
positional list and/or the keyword list exactly like the empty list; in
particular with both defaulted it returns `identifier(type(o)) ++ "()"`. -/
theorem standard_repr_none_defaults :
    ∀ (o : PyObject) (V : List PyVal) (K : List (PyVal × PyVal)),
      standard_repr o none none = standard_repr o (some []) (some [])
      ∧ standard_repr o (some V) none = standard_repr o (some V) (some [])
      ∧ standard_repr o none (some K) = standard_repr o (some []) (some K)
      ∧ standard_repr o none none = Except.ok (identifier o.cls ++ "()") := by
  intro o V K
  refine ⟨rfl, rfl, rfl, ?_⟩
  simp only [standard_repr, Option.getD_none]
  rw [if_neg (fun h => h rfl), string_join_four]
  rw [String.append_assoc, String.append_assoc]
  rfl

/-- Binding an error propagates the error (Except monad). -/
theorem exceptBind_error {α β : Type} (e : PyErr) (k : α → Except PyErr β) :
    (Except.error e : Except PyErr α) >>= k = Except.error e := rfl

/-- Binding a success applies the continuation (Except monad). -/
theorem exceptBind_ok {α β : Type} (a : α) (k : α → Except PyErr β) :
    (Except.ok a : Except PyErr α) >>= k = k a := rfl

/-- Unfolding of `fetchAll` on a nonempty positional list. -/
theorem fetchAll_cons (o : PyObject) (a : GArg) (l : List GArg) :
    fetchAll o (a :: l)
      = (a.fetch o) >>= fun v =>
          (fetchAll o l) >>= fun vs => pure (v :: vs) := rfl

/-- Unfolding of `fetchKw` on a nonempty keyword list. -/
theorem fetchKw_cons (o : PyObject) (p : String × String)
    (l : List (String × String)) :
    fetchKw o (p :: l)
      = (getattr o p.2) >>= fun v =>
          (fetchKw o l) >>= fun vs => pure ((PyVal.vStr p.1, v) :: vs) := rfl

/-- Characterization of `fetchAll` over plain names: all the looked-up values in order when
every name is present, the `AttributeError` otherwise. -/
theorem fetchAll_names (o : PyObject) (ns : List String) :
    fetchAll o (ns.map GArg.name)
      = if ns.all (fun n => (o.attrs.lookup n).isSome) = true
        then Except.ok (ns.map (attrValue o))
        else Except.error PyErr.attributeError := by
  induction ns with
  | nil => rfl
  | cons n rest ih =>
    rw [List.map_cons, fetchAll_cons]
    cases hl : o.attrs.lookup n with
    | none =>
        have hf : (GArg.name n).fetch o = Except.error PyErr.attributeError := by
          simp [GArg.fetch, getattr, hl]
        rw [hf, exceptBind_error]
        simp [List.all_cons, hl]
    | some v =>
        have hf : (GArg.name n).fetch o = Except.ok v := by
          simp [GArg.fetch, getattr, hl]
        rw [hf, exceptBind_ok, ih]
        by_cases hall : rest.all (fun n => (o.attrs.lookup n).isSome) = true
        · rw [if_pos hall, exceptBind_ok]
          simp only [List.all_cons, hl, hall, attrValue, Option.isSome_some,
            Bool.true_and, if_pos, List.map_cons, Option.getD_some]
          rfl
        · rw [if_neg hall, exceptBind_error]
          simp [List.all_cons, hl, hall]

/-- Characterization of `fetchKw` over keyword pairs: the labelled looked-up values in order
when every attribute name is present, the `AttributeError` otherwise. -/
theorem fetchKw_pairs (o : PyObject) (kw : List (String × String)) :
    fetchKw o kw
      = if kw.all (fun p => (o.attrs.lookup p.2).isSome) = true
        then Except.ok (kw.map fun p => (PyVal.vStr p.1, attrValue o p.2))
        else Except.error PyErr.attributeError := by
  induction kw with
  | nil => rfl
  | cons p rest ih =>
    rw [fetchKw_cons]
    cases hl : o.attrs.lookup p.2 with
    | none =>
        have hf : getattr o p.2 = Except.error PyErr.attributeError := by
          simp [getattr, hl]
        rw [hf, exceptBind_error]
        simp [List.all_cons, hl]
    | some v =>
        have hf : getattr o p.2 = Except.ok v := by
          simp [getattr, hl]
        rw [hf, exceptBind_ok, ih]
        by_cases hall : rest.all (fun p => (o.attrs.lookup p.2).isSome) = true
        · rw [if_pos hall, exceptBind_ok]
          simp only [List.all_cons, hl, hall, attrValue, Option.isSome_some,
            Bool.true_and, if_pos, List.map_cons, Option.getD_some]
          rfl
        · rw [if_neg hall, exceptBind_error]
          simp [List.all_cons, hl, hall]

/-- Unfolding of `GetattrRepr.call` as Except binds. -/
theorem getattrRepr_call_eq (g : GetattrRepr) (o : PyObject) :
    g.call o
      = (fetchAll o g.args) >>= fun posVals =>
          (fetchKw o g.kwargs) >>= fun kwPairs =>
            standard_repr o (some posVals) (some kwPairs) := rfl

/-- The function `standard_repr` can fail only with `TypeError`, never with
`AttributeError`. -/
theorem standard_repr_never_attributeError (o : PyObject)
    (V : List PyVal) (K : List (PyVal × PyVal)) :
    standard_repr o (some V) (some K) ≠ Except.error PyErr.attributeError := by
  simp only [standard_repr, Option.getD_some]
  by_cases h : (K.all fun tpl => tpl.1.isStr) = true
  · rw [if_neg (fun hc => hc h)]
    intro hc
    exact Except.noConfusion hc
  · rw [if_pos h]
    intro hc
    simp at hc

/-- C5: for a `GetattrRepr` spec whose positional entries are plain
names, the bound representation applied to `o` raises `AttributeError`
exactly when some positional name or keyword attribute name is absent on
`o` (the attribute-lookup error propagating unmodified, with no
defaulting); when every named attribute is present, it returns
`standard_repr` applied to the looked-up attribute values in spec
order. -/
theorem getattrRepr_call_attribute_errors :
    ∀ (ns : List String) (kw : List (String × String)) (o : PyObject),
      ((GetattrRepr.mk (ns.map GArg.name) kw).call o
          = Except.error PyErr.attributeError
        ↔ ∃ n ∈ ns ++ kw.map Prod.snd, o.attrs.lookup n = none)
      ∧ ((∀ n ∈ ns ++ kw.map Prod.snd, (o.attrs.lookup n).isSome = true) →
          (GetattrRepr.mk (ns.map GArg.name) kw).call o
            = standard_repr o (some (ns.map (attrValue o)))
                (some (kw.map fun p => (PyVal.vStr p.1, attrValue o p.2)))) := by
  intro ns kw o
  have hcall : (GetattrRepr.mk (ns.map GArg.name) kw).call o
      = (fetchAll o (ns.map GArg.name)) >>= fun posVals =>
          (fetchKw o kw) >>= fun kwPairs =>
            standard_repr o (some posVals) (some kwPairs) := rfl
  rw [hcall, fetchAll_names]
  by_cases h1 : (ns.all fun n => (o.attrs.lookup n).isSome) = true
  · rw [if_pos h1]
    simp only [exceptBind_ok]
    rw [fetchKw_pairs]
    by_cases h2 : (kw.all fun p => (o.attrs.lookup p.2).isSome) = true
    · rw [if_pos h2]
      simp only [exceptBind_ok]
      constructor
      · constructor
        · intro hc
          exact absurd hc (standard_repr_never_attributeError o _ _)
        · rintro ⟨n, hmem, hnone⟩
          rw [List.mem_append] at hmem
          rcases hmem with hmem | hmem
          · rw [List.all_eq_true] at h1
            have hs := h1 n hmem
            rw [hnone] at hs
            exact Bool.noConfusion hs
          · rw [List.mem_map] at hmem
            obtain ⟨p, hp, rfl⟩ := hmem
            rw [List.all_eq_true] at h2
            have hs := h2 p hp
            rw [hnone] at hs
            exact Bool.noConfusion hs
      · intro _
        trivial
    · rw [if_neg h2]
      simp only [exceptBind_error]
      constructor
      · constructor
        · intro _
          rw [List.all_eq_true] at h2
          push_neg at h2
          obtain ⟨p, hp, hps⟩ := h2
          exact ⟨p.2,
            List.mem_append.mpr (Or.inr (List.mem_map.mpr ⟨p, hp, rfl⟩)),
            Option.not_isSome_iff_eq_none.mp hps⟩
        · intro _
          trivial
      · intro hall
        exact absurd (by
          rw [List.all_eq_true]
          intro p hp
          exact hall p.2
            (List.mem_append.mpr (Or.inr (List.mem_map.mpr ⟨p, hp, rfl⟩)))) h2
  · rw [if_neg h1]
    simp only [exceptBind_error]
    constructor
    · constructor
      · intro _
        rw [List.all_eq_true] at h1
        push_neg at h1
        obtain ⟨n, hn, hns⟩ := h1
        exact ⟨n, List.mem_append.mpr (Or.inl hn),
          Option.not_isSome_iff_eq_none.mp hns⟩
      · intro _
        trivial
    · intro hall
      exact absurd (by
        rw [List.all_eq_true]
        intro n hn
        exact hall n (List.mem_append.mpr (Or.inl hn))) h1

/-- Witness for C5: on the concrete instance `m.P(x=1, y=2)` the spec
`GetattrRepr('x', u='y')` has every named attribute present, and its
call returns `standard_repr` of the looked-up values. -/
theorem getattrRepr_call_attribute_errors_witness :
    (GetattrRepr.mk (["x"].map GArg.name) [("u", "y")]).call oSample
      = standard_repr oSample (some (["x"].map (attrValue oSample)))
          (some ([("u", "y")].map fun p =>
            (PyVal.vStr p.1, attrValue oSample p.2))) :=
  (getattrRepr_call_attribute_errors ["x"] [("u", "y")] oSample).2 (by decide)

/-- C6: the bare-name sugar form `GetattrRepr('a', 'b', ['c'])`
constructs the same spec as the explicit keyword form
`GetattrRepr('a', 'b', c='c')`, so applying either to any instance `o`
produces identical output. -/
theorem getattrRepr_sugar_keyword_equiv :
    GetattrRepr.init [GArg.name "a", GArg.name "b",
        GArg.coll [SugarItem.bare "c"]] []
      = GetattrRepr.init [GArg.name "a", GArg.name "b"] [("c", "c")]
    ∧ ∀ o : PyObject,
        (GetattrRepr.init [GArg.name "a", GArg.name "b",
            GArg.coll [SugarItem.bare "c"]] []).call o
          = (GetattrRepr.init [GArg.name "a", GArg.name "b"]
              [("c", "c")]).call o := by
  refine ⟨rfl, fun o => rfl⟩

/-- Counterexample to C7: a construction whose first positional argument
is a collection (not a plain name) while the last is a plain name is
accepted, the collection being stored verbatim among the positional
names — no validation or rejection occurs at construction. -/
theorem getattrRepr_early_coll_accepted :
    GetattrRepr.init [GArg.coll [SugarItem.bare "a"], GArg.name "b"] []
      = GetattrRepr.mk [GArg.coll [SugarItem.bare "a"], GArg.name "b"] [] := rfl

/-- C7 amended: positional arguments before the last are not validated
at construction; a non-name earlier argument is accepted and stored
as-is, and the misuse surfaces only at call time, where the attribute
fetch with a non-string name raises `TypeError` on every instance. -/
theorem getattrRepr_no_early_validation :
    ∀ (c : List SugarItem) (rest : List GArg) (s : String)
      (K : List (String × String)) (o : PyObject),
      GetattrRepr.init (GArg.coll c :: rest ++ [GArg.name s]) K
          = GetattrRepr.mk (GArg.coll c :: rest ++ [GArg.name s]) K
        ∧ (GetattrRepr.init (GArg.coll c :: rest ++ [GArg.name s]) K).call o
          = Except.error PyErr.typeError := by
  intro c rest s K o
  have hlast : (GArg.coll c :: rest ++ [GArg.name s]).getLast?
      = some (GArg.name s) := List.getLast?_concat (GArg.coll c :: rest)
  have hinit : GetattrRepr.init (GArg.coll c :: rest ++ [GArg.name s]) K
      = GetattrRepr.mk (GArg.coll c :: rest ++ [GArg.name s]) K := by
    unfold GetattrRepr.init
    rw [hlast]
  refine ⟨hinit, ?_⟩
  rw [hinit]
  rfl

/-- C8: accessing a `GetattrRepr` through an instance via the descriptor
protocol yields a bound callable taking no further arguments whose
invocation returns exactly `__call__` on that instance. -/
theorem getattrRepr_descriptor_binding :
    ∀ (g : GetattrRepr) (o : PyObject),
      ∃ f : Unit → Except PyErr String,
        g.get (some o) = BoundResult.bound f ∧ f () = g.call o := by
  intro g o
  exact ⟨fun _ => g.call o, rfl, rfl⟩

/-- C9: `standard_repr` is a pure function of the object's class and the
two argument lists: two invocations on objects of the same class with
equal positional and keyword lists return the same result, independent
of the objects' attributes or identity. -/
theorem standard_repr_class_determined :
    ∀ (o₁ o₂ : PyObject) (V : Option (List PyVal))
      (K : Option (List (PyVal × PyVal))),
      o₁.cls = o₂.cls → standard_repr o₁ V K = standard_repr o₂ V K := by
  intro o₁ o₂ V K h
  simp only [standard_repr, h]

/-- Witness for C9: two distinct objects of the class `m.P` (one with
attributes, one without) give the same `standard_repr` output. -/
theorem standard_repr_class_determined_witness :
    standard_repr oSample (some [PyVal.vInt 7]) none
      = standard_repr oSampleBare (some [PyVal.vInt 7]) none :=
  standard_repr_class_determined oSample oSampleBare (some [PyVal.vInt 7])
    none rfl
